import Mathlib

/-!
# Verification of the PerformanceComparison benchmarking harness

Shallow embedding of `benchmark.py`, `src/utils.py` and the kernel modules in
`src/methods/` of the PerformanceComparison repository.

Modelling conventions:
* numpy floating-point values are modelled as exact rationals (`ℚ`);
* a numpy array is modelled as an index function together with a dtype tag
  (`NDBuf`); float-to-integer conversion (`int(...)` in Python, C-style casts
  in numpy/numba stores) truncates toward zero (`ratTrunc`) and then wraps
  into the dtype's range (`DType.castInt`);
* in-place mutation of the shared `end_array` object is modelled by explicit
  state passing: a kernel's `process` maps the current contents of
  `end_array` to (contents of `end_array` after the call, returned array);
* wall-clock durations are abstracted by a cost oracle `cost : ℕ → ℚ` giving
  the duration of the i-th invocation of the timed thunk; `timeit(number=n)`
  sums the costs of the `n` invocations it performs.
-/

unseal Rat.mul Rat.add Rat.sub Rat.inv

namespace PerfComp

/-- Truncation toward zero: the semantics of Python's `int(...)` applied to a
float and of C-style float-to-integer conversion used by numpy/numba when a
floating value is stored into an integer array.  `Int.tdiv` rounds toward
zero and the denominator of a rational is positive, so this agrees with
`⌊q⌋` for `0 ≤ q` and with `⌈q⌉` for `q ≤ 0` (proved below). -/
def ratTrunc (q : ℚ) : ℤ := q.num.tdiv q.den

/-- The numpy dtypes appearing in the repository: the harness's `uint8`
output buffer (`utils.create_base_arrays`), the `int32` rows built by
`parallel_method`, the platform-default `int64` produced by
`numpy.array` on a nested list of Python ints (`list_comprehension_method`),
and the `uint64` scratch buffer allocated by `dask_array_method`'s setup. -/
inductive DType
  | uint8
  | int32
  | int64
  | uint64
deriving DecidableEq

/-- Two's-complement wrap-around of a mathematical integer into `bits` bits. -/
def wrapSigned (bits : ℕ) (z : ℤ) : ℤ :=
  (z + 2 ^ (bits - 1)) % 2 ^ bits - 2 ^ (bits - 1)

/-- Storing a mathematical integer into a cell of the given dtype. -/
def DType.castInt : DType → ℤ → ℤ
  | .uint8, z => z % 256
  | .uint64, z => z % 2 ^ 64
  | .int32, z => wrapSigned 32 z
  | .int64, z => wrapSigned 64 z

/-- Storing a floating value into an integer-dtype cell: truncate toward
zero, then wrap into the dtype's range (C-style conversion, as performed by
numpy/numba when assigning a float into an integer array). -/
def DType.store (d : DType) (q : ℚ) : ℤ := d.castInt (ratTrunc q)

/-- The 2D input field (`start_array`): Perlin-noise values, one rational per
cell. -/
abbrev Field (r c : ℕ) := Fin r → Fin c → ℚ

/-- A `(r, c, 3)` numpy array: a dtype tag plus the integer contents of every
cell.  This models the output buffers of the repository (`end_array` and the
fresh arrays built by the kernels), all of which have integer dtypes. -/
structure NDBuf (r c : ℕ) where
  dtype : DType
  data : Fin r → Fin c → Fin 3 → ℤ

instance {r c : ℕ} : DecidableEq (NDBuf r c) := fun a b =>
  decidable_of_iff (a.dtype = b.dtype ∧ a.data = b.data)
    (by cases a; cases b; simp)

/-- `numpy.zeros((r, c, 3), dtype=d)`. -/
def zerosBuf (r c : ℕ) (d : DType) : NDBuf r c := ⟨d, fun _ _ _ => 0⟩

/-- `utils.create_base_arrays`: the noise collaborator (external, opaque)
provides the 2D field; the output buffer is a freshly zeroed `uint8` array of
shape `(GRID_ROW, GRID_COL, 3)`. -/
def create_base_arrays {r c : ℕ} (noise : Field r c) : Field r c × NDBuf r c :=
  (noise, zerosBuf r c DType.uint8)

/-- A kernel's `process(start_array, end_array)`.  The first component of the
result is the contents of the `end_array` object after the call (capturing
in-place mutation), the second is the array returned by the function. -/
abbrev ProcessFn (r c : ℕ) := Field r c → NDBuf r c → NDBuf r c × NDBuf r c

/-- `nested_loop_method.process`: for every cell,
`res = start_array[x][y] * 255 if start_array[x][y] > 0 else 0`, then
`end_array[x, y] = (res, 0, 0)` (all three channels written, each component
cast into the buffer's dtype). -/
def nested_loop_process {r c : ℕ} : ProcessFn r c := fun start_array end_array =>
  let e : NDBuf r c :=
    { end_array with
      data := fun x y ch =>
        end_array.dtype.store
          (if ch = 0 then (if start_array x y > 0 then start_array x y * 255 else 0) else 0) }
  (e, e)

/-- `where_method.process`:
`new_end_array = where(start_array > 0, 255 * start_array, 0);`
`end_array[:, :, 0] = new_end_array` (channels 1 and 2 untouched). -/
def where_process {r c : ℕ} : ProcessFn r c := fun start_array end_array =>
  let new_end_array : Fin r → Fin c → ℚ := fun x y =>
    if start_array x y > 0 then 255 * start_array x y else 0
  let e : NDBuf r c :=
    { end_array with
      data := fun x y ch =>
        if ch = 0 then end_array.dtype.store (new_end_array x y) else end_array.data x y ch }
  (e, e)

/-- `clip_method.process`: `end_array[:, :, 0] = clip(start_array, 0, None) * 255`;
`clip(v, 0, None)` clamps from below at `0`, i.e. `max v 0`. -/
def clip_process {r c : ℕ} : ProcessFn r c := fun start_array end_array =>
  let e : NDBuf r c :=
    { end_array with
      data := fun x y ch =>
        if ch = 0 then end_array.dtype.store (max (start_array x y) 0 * 255)
        else end_array.data x y ch }
  (e, e)

/-- `numpy.heaviside(x, h0)`: `0` for `x < 0`, `h0` for `x = 0`, `1` for `x > 0`. -/
def np_heaviside (x h0 : ℚ) : ℚ := if x < 0 then 0 else if x = 0 then h0 else 1

/-- `heaviside_method.process`:
`end_array[:, :, 0] = heaviside(start_array, 0) * start_array * 255`. -/
def heaviside_process {r c : ℕ} : ProcessFn r c := fun start_array end_array =>
  let e : NDBuf r c :=
    { end_array with
      data := fun x y ch =>
        if ch = 0 then
          end_array.dtype.store (np_heaviside (start_array x y) 0 * start_array x y * 255)
        else end_array.data x y ch }
  (e, e)

/-- `piecewise_method.process`:
`end_array[:, :, 0] = piecewise(start_array, [start_array > 0], [lambda x: x * 255, 0])`. -/
def piecewise_process {r c : ℕ} : ProcessFn r c := fun start_array end_array =>
  let e : NDBuf r c :=
    { end_array with
      data := fun x y ch =>
        if ch = 0 then
          end_array.dtype.store (if start_array x y > 0 then start_array x y * 255 else 0)
        else end_array.data x y ch }
  (e, e)

/-- `dask_array_method.process` (the file defines a numba JIT kernel): the
inner jitted function's parameter `new_end_array` is bound to the argument
`end_array` at the call `numba_jit_method(end_array)`, so the body
`res = 255 * start_array[x][y] if start_array[x][y] > 0 else 0;`
`new_end_array[x, y, 0] = res` writes channel 0 of `end_array` in place;
channels 1 and 2 are untouched.  The module-level binding `new_end_array`
created by this kernel's setup string is shadowed by the parameter and never
read. -/
def dask_array_process {r c : ℕ} : ProcessFn r c := fun start_array end_array =>
  let e : NDBuf r c :=
    { end_array with
      data := fun x y ch =>
        if ch = 0 then
          end_array.dtype.store (if start_array x y > 0 then 255 * start_array x y else 0)
        else end_array.data x y ch }
  (e, e)

/-- `list_comprehension_method.process`:
`grid_array_list = [[(int(value * 255), 0, 0) for value in row] for row in start_array]`
`return array(grid_array_list)` — the `end_array` argument is never read or
written; `numpy.array` on nested Python ints yields the platform-default
signed integer dtype (`int64`).  Note the missing sign test: `int(value *
255)` is applied to negative values as well. -/
def list_comprehension_process {r c : ℕ} : ProcessFn r c := fun start_array end_array =>
  let fresh : NDBuf r c :=
    { dtype := DType.int64
      data := fun x y ch =>
        DType.int64.castInt (if ch = 0 then ratTrunc (start_array x y * 255) else 0) }
  (end_array, fresh)

/-- `parallel_method.process_cell`:
`(int(255 * value) if value > 0 else 0, 0, 0)`. -/
def process_cell (value : ℚ) : Fin 3 → ℤ := fun ch =>
  if ch = 0 then (if value > 0 then ratTrunc (255 * value) else 0) else 0

/-- `parallel_method.process`: maps `process_row` (an `int32` numpy row of
`process_cell` results) over the rows of `start_array` and assembles
`array(new_end_array, dtype='int32')`; the `end_array` argument is never read
or written. -/
def parallel_process {r c : ℕ} : ProcessFn r c := fun start_array end_array =>
  let fresh : NDBuf r c :=
    { dtype := DType.int32
      data := fun x y ch => DType.int32.castInt (process_cell (start_array x y) ch) }
  (end_array, fresh)

/-- The bindings a kernel's setup string establishes in the timing namespace.
Imports and helper-function definitions are not observable as array state and
are abstracted away; array allocations (such as `dask_array_method`'s
`new_end_array = zeros((GRID_ROW, GRID_COL, 3), dtype=uint64)`) are recorded
by name. -/
abbrev SetupBindings (r c : ℕ) := List (String × NDBuf r c)

/-- A kernel-definition module as loaded by `utils.create_methods_list`:
it may or may not expose the `setup` and `process` callables (`none` models a
malformed definition whose attribute access raises `AttributeError`). -/
structure PyModule (r c : ℕ) where
  setup? : Option (Unit → SetupBindings r c)
  process? : Option (ProcessFn r c)

/-- `n` successive invocations of the timed thunk
`lambda: process(start_array, end_array)`: each invocation runs on the
brought-forward contents of the shared `end_array` object (in-place kernels
accumulate their writes across invocations). -/
def iterateProcess {r c : ℕ} (p : ProcessFn r c) (f : Field r c) : ℕ → NDBuf r c → NDBuf r c
  | 0, e => e
  | n + 1, e => iterateProcess p f n (p f e).1

/-- Everything observable about one `benchmark(...)` call. -/
structure BenchOutcome (r c : ℕ) where
  /-- Contents of the shared `end_array` object when `benchmark` was entered:
  this is the buffer the timed thunk closes over. -/
  entry_end : NDBuf r c
  /-- `_NS["start_array"] = start_array.copy()`. -/
  ns_start_copy : Field r c
  /-- `_NS["end_array"] = end_array.copy()`. -/
  ns_end_copy : NDBuf r c
  /-- Bindings created by executing the kernel's setup string in the timer's
  namespace. -/
  ns_setup : SetupBindings r c
  /-- Number of thunk invocations performed by the warm-up phase. -/
  warmup_invocations : ℕ
  /-- Contents of the shared `end_array` object after the timed trials. -/
  shared_end_after : NDBuf r c
  /-- `elapsed_time` returned by `timer.timeit(number=NUM_TRIALS)`. -/
  total : ℚ
  /-- `elapsed_time / NUM_TRIALS * 1000`. -/
  avg : ℚ

/-- `benchmark.benchmark(setup, process, start_array, end_array)`.

The namespace `_NS` receives *copies* of the two arrays, but the timed
statement is the closure `lambda: process(start_array, end_array)`, whose
free variables resolve to `benchmark`'s parameters — the original shared
arrays — not to the namespace entries; `process` itself is a module-level
function whose globals are its defining module, so the setup string executed
into the timer environment only produces the recorded `ns_setup` bindings.

Warm-up: `if NUM_WARMUP > 0: [timer.timeit(number=NUM_WARMUP) for _ in
range(NUM_WARMUP)]` — `numWarmup` outer iterations of `numWarmup` invocations
each, timings discarded.  Then `elapsed_time = timer.timeit(number=NUM_TRIALS)`
sums the costs of exactly the `numTrials` invocations following the warm-up
ones. -/
def benchmark {r c : ℕ} (setup : Unit → SetupBindings r c) (process : ProcessFn r c)
    (start_array : Field r c) (end_array : NDBuf r c)
    (numWarmup : ℤ) (numTrials : ℕ) (cost : ℕ → ℚ) : BenchOutcome r c :=
  let setup_code := setup ()
  let warmInv : ℕ := if 0 < numWarmup then numWarmup.toNat * numWarmup.toNat else 0
  let afterWarm := iterateProcess process start_array warmInv end_array
  let afterTimed := iterateProcess process start_array numTrials afterWarm
  let elapsed_time : ℚ := ∑ i ∈ Finset.range numTrials, cost (warmInv + i)
  { entry_end := end_array
    ns_start_copy := start_array
    ns_end_copy := end_array
    ns_setup := setup_code
    warmup_invocations := warmInv
    shared_end_after := afterTimed
    total := elapsed_time
    avg := elapsed_time / numTrials * 1000 }

/-- `SIZE` from `benchmark.py`. -/
def SIZE : ℕ × ℕ := (2560, 1440)

/-- `NUM_TRIALS` from `benchmark.py`. -/
def NUM_TRIALS : ℕ := 1000

/-- `NUM_WARMUP` from `benchmark.py`. -/
def NUM_WARMUP : ℤ := 1

/-- The benchmarking loop of `display_results`: for each registered module in
order, fetch its `setup` and `process` attributes (an absent attribute raises
`AttributeError`, modelled by the `Bool` flag, aborting the loop) and call
`benchmark(module.setup, module.process, start_array, end_array)`.  The
shared `end_array` object is threaded from one kernel's run into the next;
`cost k` is the invocation-cost oracle for the `k`-th kernel. -/
def runKernels {r c : ℕ} (mods : List (String × PyModule r c)) (f : Field r c) (e : NDBuf r c)
    (w : ℤ) (t : ℕ) (cost : ℕ → ℕ → ℚ) :
    List (String × BenchOutcome r c) × Bool × NDBuf r c :=
  match mods with
  | [] => ([], false, e)
  | (name, m) :: rest =>
    match m.setup?, m.process? with
    | some su, some p =>
      let b := benchmark su p f e w t (cost 0)
      let out := runKernels rest f b.shared_end_after w t (fun k => cost (k + 1))
      ((name, b) :: out.1, out.2.1, out.2.2)
    | _, _ => ([], true, e)

/-- One entry of the `results` list of `display_results`:
`(method_name, avg_time, total_time)`. -/
abbrev BenchRow := String × ℚ × ℚ

/-- The sort key used by `sorted(results, key=lambda x: x[1])`: the average
time per trial. -/
def rowKey (row : BenchRow) : ℚ := row.2.1

/-- The ordering relation of the reporter's sort. -/
def rowLE (a b : BenchRow) : Prop := rowKey a ≤ rowKey b

instance : DecidableRel rowLE := fun a b => inferInstanceAs (Decidable (rowKey a ≤ rowKey b))

instance : IsTotal BenchRow rowLE := ⟨fun a b => le_total (rowKey a) (rowKey b)⟩

instance : IsTrans BenchRow rowLE := ⟨fun _ _ _ hab hbc => le_trans hab hbc⟩

/-- `sorted(results, key=lambda x: x[1])`: Python's `sorted` is a stable sort
ascending by key, modelled by insertion sort with the non-strict key order. -/
def pySorted (l : List BenchRow) : List BenchRow := List.insertionSort rowLE l

/-- One line printed by `display_results`, abstracting the f-string layout. -/
inductive Line
  | sep
  | header (rows cols trials : ℕ)
  | result (name : String) (avg total : ℚ)
  | footer (overall : ℚ)
deriving DecidableEq

/-- Everything observable about one `display_results(methods)` call. -/
structure DisplayRun (r c : ℕ) where
  /-- The lines emitted on standard output by the `print` calls inside
  `display_results`, in order. -/
  printed : List Line
  /-- The value returned by `display_results` (Python `None`; the function
  has no `return` statement). -/
  returned : Option (List Line)
  /-- Whether an `AttributeError` escaped the benchmarking loop. -/
  raised : Bool
  /-- The benchmark outcomes of the successfully measured kernels, in
  registry order. -/
  measured : List (String × BenchOutcome r c)
  /-- Contents of the shared `end_array` object afterwards. -/
  finalEnd : NDBuf r c

/-- `benchmark.display_results(methods)`: prints the separator/header
preamble, runs every kernel through `benchmark` (threading the shared
arrays), sorts the collected `(name, avg_time, total_time)` rows by average
time, prints one line per row and a grand-total footer, and returns `None`.
If a module lacks `setup` or `process` the loop raises after the preamble and
nothing further is printed. -/
def display_results {r c : ℕ} (mods : List (String × PyModule r c)) (f : Field r c)
    (e : NDBuf r c) (w : ℤ) (t : ℕ) (cost : ℕ → ℕ → ℚ) : DisplayRun r c :=
  let preamble := [Line.sep, Line.header r c t, Line.sep]
  let out := runKernels mods f e w t cost
  if out.2.1 then
    { printed := preamble
      returned := none
      raised := true
      measured := out.1
      finalEnd := out.2.2 }
  else
    let results : List BenchRow := out.1.map fun p => (p.1, p.2.avg, p.2.total)
    let overall : ℚ := (out.1.map fun p => p.2.total).sum
    let sorted_results := pySorted results
    { printed :=
        preamble ++ sorted_results.map (fun row => Line.result row.1 row.2.1 row.2.2)
          ++ [Line.sep, Line.footer overall, Line.sep]
      returned := none
      raised := false
      measured := out.1
      finalEnd := out.2.2 }

/-- The field values lie in the nominal Perlin-noise range `[-1, 1]`
(spec §3, "Input Field ... nominally in [-1, 1]"). -/
def FieldInRange {r c : ℕ} (f : Field r c) : Prop :=
  ∀ x y, -1 ≤ f x y ∧ f x y ≤ 1

instance {r c : ℕ} (f : Field r c) : Decidable (FieldInRange f) :=
  inferInstanceAs (Decidable (∀ x y, -1 ≤ f x y ∧ f x y ≤ 1))

/-- The cell values produced by the nested-loop reference kernel on a
zero-initialized buffer: channel 0 holds `255 * v` truncated when `v > 0` and
`0` otherwise, channels 1 and 2 are always `0`. -/
def refData {r c : ℕ} (f : Field r c) : Fin r → Fin c → Fin 3 → ℤ := fun x y ch =>
  if ch = 0 then (if f x y > 0 then ratTrunc (255 * f x y) else 0) else 0

/-- Every cell value fits in an 8-bit unsigned channel. -/
def dataIn255 {r c : ℕ} (d : Fin r → Fin c → Fin 3 → ℤ) : Prop :=
  ∀ x y ch, 0 ≤ d x y ch ∧ d x y ch ≤ 255

/-- Python's `str.endswith`, computed on the character lists. -/
def pyEndsWith (s suffix : String) : Bool := suffix.data.isSuffixOf s.data

/-- `utils.create_methods_list`: keep the `.py` entries of the directory
listing other than `__init__.py`, strip the extension, and import each — the
loaded module is registered unconditionally, with no check that it exposes
`setup` or `process`. -/
def create_methods_list {r c : ℕ} (files : List String) (load : String → PyModule r c) :
    List (String × PyModule r c) :=
  ((files.filter fun fn => pyEndsWith fn ".py" && fn != "__init__.py").map
      fun fn => fn.dropRight 3).map
    fun m => (m, load m)

/-- The module `nested_loop_method.py`: `setup` returns the empty string. -/
def nested_loop_method {r c : ℕ} : PyModule r c :=
  { setup? := some fun _ => [], process? := some nested_loop_process }

/-- The module `where_method.py`: `setup` only imports `where`. -/
def where_method {r c : ℕ} : PyModule r c :=
  { setup? := some fun _ => [], process? := some where_process }

/-- The module `clip_method.py`: `setup` only imports `clip`. -/
def clip_method {r c : ℕ} : PyModule r c :=
  { setup? := some fun _ => [], process? := some clip_process }

/-- The module `heaviside_method.py`: `setup` only imports `heaviside`. -/
def heaviside_method {r c : ℕ} : PyModule r c :=
  { setup? := some fun _ => [], process? := some heaviside_process }

/-- The module `piecewise_method.py`: `setup` imports `piecewise` and defines
a helper function (no array bindings). -/
def piecewise_method {r c : ℕ} : PyModule r c :=
  { setup? := some fun _ => [], process? := some piecewise_process }

/-- The module `dask_array_method.py`: its setup string allocates
`new_end_array = zeros((GRID_ROW, GRID_COL, 3), dtype=uint64)` in the timing
namespace. -/
def dask_array_method {r c : ℕ} : PyModule r c :=
  { setup? := some fun _ => [("new_end_array", zerosBuf r c DType.uint64)]
    process? := some dask_array_process }

/-- The module `list_comprehension_method.py`: `setup` only imports `array`. -/
def list_comprehension_method {r c : ℕ} : PyModule r c :=
  { setup? := some fun _ => [], process? := some list_comprehension_process }

/-- The module `parallel_method.py`: `setup` imports and defines helper
functions (no array bindings). -/
def parallel_method {r c : ℕ} : PyModule r c :=
  { setup? := some fun _ => [], process? := some parallel_process }

/-- A malformed kernel definition: it exposes `setup` but no `process`
callable. -/
def zz_broken_method {r c : ℕ} : PyModule r c :=
  { setup? := some fun _ => [], process? := none }

/-- Concrete 1×1 input field holding `0.5`. -/
def f_pos : Field 1 1 := fun _ _ => mkRat 1 2

/-- Concrete 1×1 input field holding `-0.5`. -/
def f_neg : Field 1 1 := fun _ _ => mkRat (-1) 2

/-- A zeroed 1×1 `uint8` output buffer. -/
def e0_1 : NDBuf 1 1 := zerosBuf 1 1 DType.uint8

/-- The 4×4 deterministic field of the end-to-end scenario: cell `(0,0)`
holds `-0.5`, cell `(1,1)` holds `0.6`, all other cells `0`. -/
def f_scene : Field 4 4 := fun x y =>
  if x = 0 ∧ y = 0 then mkRat (-1) 2 else if x = 1 ∧ y = 1 then mkRat 3 5 else 0

/-- A zeroed 4×4 `uint8` output buffer. -/
def e0_4 : NDBuf 4 4 := zerosBuf 4 4 DType.uint8

/-- A unit-cost oracle: every invocation takes one time unit. -/
def unitCost : ℕ → ℚ := fun _ => 1

/-- A per-kernel unit-cost oracle. -/
def unitCost2 : ℕ → ℕ → ℚ := fun _ _ => 1

/-- A directory listing used to exercise discovery: one well-formed kernel
file, one malformed kernel file, and the package marker. -/
def methodFiles : List String :=
  ["nested_loop_method.py", "zz_broken_method.py", "__init__.py"]

/-- The module loader for `methodFiles`. -/
def loadMethods : String → PyModule 1 1 := fun s =>
  if s = "nested_loop_method" then nested_loop_method else zz_broken_method

/-! ## Arithmetic facts about truncation and dtype stores -/

theorem ratTrunc_of_nonneg (q : ℚ) (h : 0 ≤ q) : ratTrunc q = ⌊q⌋ := by
  rw [ratTrunc, Rat.floor_def]
  exact Int.tdiv_eq_ediv (Rat.num_nonneg.mpr h) (Int.ofNat_nonneg _)

theorem ratTrunc_bounds (q : ℚ) (h0 : 0 ≤ q) (h255 : q ≤ 255) :
    0 ≤ ratTrunc q ∧ ratTrunc q ≤ 255 := by
  rw [ratTrunc_of_nonneg q h0]
  refine ⟨Int.le_floor.mpr (by exact_mod_cast h0), ?_⟩
  have h := (Int.floor_le q).trans h255
  exact_mod_cast h

theorem ratTrunc_zero : ratTrunc 0 = 0 := rfl

theorem mul255_bounds (v : ℚ) (hpos : v > 0) (h2 : v ≤ 1) :
    0 ≤ 255 * v ∧ 255 * v ≤ 255 := by
  constructor
  · positivity
  · nlinarith

theorem castInt_uint8_eq (z : ℤ) (h0 : 0 ≤ z) (h1 : z ≤ 255) :
    DType.uint8.castInt z = z :=
  Int.emod_eq_of_lt h0 (by omega)

theorem castInt_int32_eq (z : ℤ) (h0 : 0 ≤ z) (h1 : z ≤ 255) :
    DType.int32.castInt z = z := by
  show (z + 2 ^ (32 - 1)) % 2 ^ 32 - 2 ^ (32 - 1) = z
  have e1 : (2 : ℤ) ^ (32 - 1) = 2147483648 := by norm_num
  have e2 : (2 : ℤ) ^ 32 = 4294967296 := by norm_num
  rw [e1, e2, Int.emod_eq_of_lt (by omega) (by omega)]
  omega

theorem store_uint8_zero : DType.uint8.store 0 = 0 := rfl

theorem store_uint8_of_sign (v : ℚ) (h2 : v ≤ 1) :
    DType.uint8.store (if v > 0 then 255 * v else 0)
      = if v > 0 then ratTrunc (255 * v) else 0 := by
  rw [DType.store]
  split_ifs with h
  · obtain ⟨hb0, hb1⟩ := mul255_bounds v h h2
    obtain ⟨hl, hr⟩ := ratTrunc_bounds (255 * v) hb0 hb1
    exact castInt_uint8_eq _ hl hr
  · rw [ratTrunc_zero]
    rfl

theorem clip_val_eq (v : ℚ) : max v 0 * 255 = if v > 0 then 255 * v else 0 := by
  rcases le_or_lt v 0 with h | h
  · rw [max_eq_right h, if_neg (not_lt.mpr h), zero_mul]
  · rw [max_eq_left h.le, if_pos h, mul_comm]

theorem heaviside_val_eq (v : ℚ) :
    np_heaviside v 0 * v * 255 = if v > 0 then 255 * v else 0 := by
  rw [np_heaviside]
  rcases lt_trichotomy v 0 with h | h | h
  · rw [if_pos h, if_neg (not_lt.mpr h.le), zero_mul, zero_mul]
  · subst h
    norm_num
  · rw [if_neg (not_lt.mpr h.le), if_neg (ne_of_gt h), if_pos h, one_mul, mul_comm]

/-! ## Per-kernel closed forms on the zeroed `uint8` harness buffer -/

theorem nested_loop_data {r c : ℕ} (f : Field r c) (hf : FieldInRange f) (e : NDBuf r c)
    (he : e.dtype = DType.uint8) :
    (nested_loop_process f e).2.data = refData f := by
  funext x y ch
  obtain ⟨h1, h2⟩ := hf x y
  simp only [nested_loop_process, refData, he]
  by_cases hch : ch = 0
  · rw [if_pos hch, if_pos hch, mul_comm (f x y) 255]
    exact store_uint8_of_sign (f x y) h2
  · rw [if_neg hch, if_neg hch, store_uint8_zero]

theorem where_data {r c : ℕ} (f : Field r c) (hf : FieldInRange f) :
    (where_process f (zerosBuf r c DType.uint8)).2.data = refData f := by
  funext x y ch
  obtain ⟨h1, h2⟩ := hf x y
  simp only [where_process, refData, zerosBuf]
  by_cases hch : ch = 0
  · rw [if_pos hch, if_pos hch]
    exact store_uint8_of_sign (f x y) h2
  · rw [if_neg hch, if_neg hch]

theorem clip_data {r c : ℕ} (f : Field r c) (hf : FieldInRange f) :
    (clip_process f (zerosBuf r c DType.uint8)).2.data = refData f := by
  funext x y ch
  obtain ⟨h1, h2⟩ := hf x y
  simp only [clip_process, refData, zerosBuf]
  by_cases hch : ch = 0
  · rw [if_pos hch, if_pos hch, clip_val_eq]
    exact store_uint8_of_sign (f x y) h2
  · rw [if_neg hch, if_neg hch]

theorem heaviside_data {r c : ℕ} (f : Field r c) (hf : FieldInRange f) :
    (heaviside_process f (zerosBuf r c DType.uint8)).2.data = refData f := by
  funext x y ch
  obtain ⟨h1, h2⟩ := hf x y
  simp only [heaviside_process, refData, zerosBuf]
  by_cases hch : ch = 0
  · rw [if_pos hch, if_pos hch, heaviside_val_eq]
    exact store_uint8_of_sign (f x y) h2
  · rw [if_neg hch, if_neg hch]

theorem piecewise_data {r c : ℕ} (f : Field r c) (hf : FieldInRange f) :
    (piecewise_process f (zerosBuf r c DType.uint8)).2.data = refData f := by
  funext x y ch
  obtain ⟨h1, h2⟩ := hf x y
  simp only [piecewise_process, refData, zerosBuf]
  by_cases hch : ch = 0
  · rw [if_pos hch, if_pos hch, mul_comm (f x y) 255]
    exact store_uint8_of_sign (f x y) h2
  · rw [if_neg hch, if_neg hch]

theorem dask_array_data {r c : ℕ} (f : Field r c) (hf : FieldInRange f) :
    (dask_array_process f (zerosBuf r c DType.uint8)).2.data = refData f := by
  funext x y ch
  obtain ⟨h1, h2⟩ := hf x y
  simp only [dask_array_process, refData, zerosBuf]
  by_cases hch : ch = 0
  · rw [if_pos hch, if_pos hch]
    exact store_uint8_of_sign (f x y) h2
  · rw [if_neg hch, if_neg hch]

theorem parallel_data {r c : ℕ} (f : Field r c) (hf : FieldInRange f) (e : NDBuf r c) :
    (parallel_process f e).2.data = refData f := by
  funext x y ch
  obtain ⟨h1, h2⟩ := hf x y
  simp only [parallel_process, refData, process_cell]
  by_cases hch : ch = 0
  · rw [if_pos hch]
    split_ifs with hv
    · obtain ⟨hb0, hb1⟩ := mul255_bounds (f x y) hv h2
      obtain ⟨hl, hr⟩ := ratTrunc_bounds (255 * f x y) hb0 hb1
      exact castInt_int32_eq _ hl hr
    · rfl
  · rw [if_neg hch]
    rfl

theorem refData_in255 {r c : ℕ} (f : Field r c) (hf : FieldInRange f) :
    dataIn255 (refData f) := by
  intro x y ch
  obtain ⟨h1, h2⟩ := hf x y
  rw [refData]
  split_ifs with hch hv
  · obtain ⟨hb0, hb1⟩ := mul255_bounds (f x y) hv h2
    exact ratTrunc_bounds (255 * f x y) hb0 hb1
  · exact ⟨le_refl 0, by norm_num⟩
  · exact ⟨le_refl 0, by norm_num⟩

/-! ## Claim theorems -/

/-- C7: before the timed trials, `benchmark` runs `warmup_count` outer
iterations of `warmup_count` internal invocations each (`warmup_count²`
warm-up invocations in total, happening only when `warmup_count` is
positive), the timed trials start from the post-warm-up buffer state, and the
reported elapsed time sums only the costs of the trial invocations — the
warm-up timings are discarded: the total is unchanged under any change of
the costs of the warm-up invocations. -/
theorem benchmark_warmup_squared_and_discarded (r c : ℕ) (su : Unit → SetupBindings r c)
    (p : ProcessFn r c) (f : Field r c) (e : NDBuf r c) (w : ℤ) (t : ℕ) (cost : ℕ → ℚ) :
    (0 < w → (benchmark su p f e w t cost).warmup_invocations = w.toNat * w.toNat) ∧
    (w ≤ 0 → (benchmark su p f e w t cost).warmup_invocations = 0) ∧
    (benchmark su p f e w t cost).shared_end_after
      = iterateProcess p f t
          (iterateProcess p f (benchmark su p f e w t cost).warmup_invocations e) ∧
    (benchmark su p f e w t cost).total
      = ∑ i ∈ Finset.range t, cost ((benchmark su p f e w t cost).warmup_invocations + i) ∧
    (∀ cost2 : ℕ → ℚ,
      (∀ i, (benchmark su p f e w t cost).warmup_invocations ≤ i → cost i = cost2 i) →
      (benchmark su p f e w t cost).total = (benchmark su p f e w t cost2).total) := by
  refine ⟨fun h => ?_, fun h => ?_, rfl, rfl, fun cost2 h => ?_⟩
  · simp only [benchmark, if_pos h]
  · simp only [benchmark, if_neg (not_lt.mpr h)]
  · have h4 : (benchmark su p f e w t cost).total
        = ∑ i ∈ Finset.range t, cost ((benchmark su p f e w t cost).warmup_invocations + i) :=
      rfl
    have h5 : (benchmark su p f e w t cost2).total
        = ∑ i ∈ Finset.range t, cost2 ((benchmark su p f e w t cost).warmup_invocations + i) :=
      rfl
    rw [h4, h5]
    exact Finset.sum_congr rfl fun i _ => h _ (Nat.le_add_right _ i)

/-- Witness for C7 at concrete inputs: `warmup_count = 2` gives four warm-up
invocations, `warmup_count = 0` gives none, and replacing the cost oracle by
one agreeing on the trial invocations leaves the total unchanged. -/
theorem benchmark_warmup_squared_and_discarded_witness :
    ((0 : ℤ) < 2 ∧
      (benchmark (fun _ => []) nested_loop_process f_pos e0_1 2 1 unitCost).warmup_invocations
        = (2 : ℤ).toNat * (2 : ℤ).toNat) ∧
    ((0 : ℤ) ≤ 0 ∧
      (benchmark (fun _ => []) nested_loop_process f_pos e0_1 0 1 unitCost).warmup_invocations
        = 0) ∧
    ((∀ i, (benchmark (fun _ => []) nested_loop_process f_pos e0_1 2 1
        unitCost).warmup_invocations ≤ i → unitCost i = unitCost i) ∧
      (benchmark (fun _ => []) nested_loop_process f_pos e0_1 2 1 unitCost).total
        = (benchmark (fun _ => []) nested_loop_process f_pos e0_1 2 1 unitCost).total) :=
  ⟨⟨by decide,
      (benchmark_warmup_squared_and_discarded 1 1 (fun _ => []) nested_loop_process f_pos e0_1
        2 1 unitCost).1 (by decide)⟩,
    ⟨by decide,
      (benchmark_warmup_squared_and_discarded 1 1 (fun _ => []) nested_loop_process f_pos e0_1
        0 1 unitCost).2.1 (by decide)⟩,
    ⟨fun _ _ => rfl,
      (benchmark_warmup_squared_and_discarded 1 1 (fun _ => []) nested_loop_process f_pos e0_1
        2 1 unitCost).2.2.2.2 unitCost fun _ _ => rfl⟩⟩

/-- C8: on any input field and any zero-initialized output buffer of matching
shape, the `where`, `clip`, `heaviside` and `piecewise` kernels compute the
same per-cell channel-0 value (`255 * v` at strictly positive cells, `0`
elsewhere) and their `process` calls produce equal buffer states and equal
returned arrays. -/
theorem numpy_kernels_identical (r c : ℕ) (f : Field r c) (e : NDBuf r c)
    (_hzero : e.data = fun _ _ _ => 0) :
    (∀ v : ℚ, max v 0 * 255 = if v > 0 then 255 * v else 0) ∧
    (∀ v : ℚ, np_heaviside v 0 * v * 255 = if v > 0 then 255 * v else 0) ∧
    (∀ v : ℚ, (if v > 0 then v * 255 else 0) = if v > 0 then 255 * v else 0) ∧
    where_process f e = clip_process f e ∧
    where_process f e = heaviside_process f e ∧
    where_process f e = piecewise_process f e := by
  refine ⟨clip_val_eq, heaviside_val_eq,
    fun v => by split_ifs with hv; exacts [mul_comm v 255, rfl], ?_, ?_, ?_⟩
  · simp only [where_process, clip_process, Prod.mk.injEq, NDBuf.mk.injEq, true_and, and_self]
    funext x y ch
    rw [clip_val_eq]
  · simp only [where_process, heaviside_process, Prod.mk.injEq, NDBuf.mk.injEq, true_and,
      and_self]
    funext x y ch
    rw [heaviside_val_eq]
  · simp only [where_process, piecewise_process, Prod.mk.injEq, NDBuf.mk.injEq, true_and,
      and_self]
    funext x y ch
    rw [mul_comm (f x y) 255]

/-- Witness for C8: the four kernels agree on the concrete 1×1 field holding
`0.5` with the zeroed `uint8` buffer. -/
theorem numpy_kernels_identical_witness :
    e0_1.data = (fun _ _ _ => 0) ∧
    where_process f_pos e0_1 = clip_process f_pos e0_1 ∧
    where_process f_pos e0_1 = heaviside_process f_pos e0_1 ∧
    where_process f_pos e0_1 = piecewise_process f_pos e0_1 :=
  ⟨rfl,
    (numpy_kernels_identical 1 1 f_pos e0_1 rfl).2.2.2.1,
    (numpy_kernels_identical 1 1 f_pos e0_1 rfl).2.2.2.2.1,
    (numpy_kernels_identical 1 1 f_pos e0_1 rfl).2.2.2.2.2⟩

/-- C9: `list_comprehension_method.process` and `parallel_method.process`
never read or mutate their `end_array` argument — the buffer state after the
call is exactly the argument and the returned array is the same whatever
buffer is passed — and they return freshly built `(rows, cols, 3)` arrays of
signed integer dtype (`int64` resp. `int32`), not 8-bit unsigned. -/
theorem fresh_array_kernels_frame (r c : ℕ) (f : Field r c) (e e2 : NDBuf r c) :
    (list_comprehension_process f e).1 = e ∧
    (list_comprehension_process f e).2 = (list_comprehension_process f e2).2 ∧
    (list_comprehension_process f e).2.dtype = DType.int64 ∧
    (list_comprehension_process f e).2.dtype ≠ DType.uint8 ∧
    (parallel_process f e).1 = e ∧
    (parallel_process f e).2 = (parallel_process f e2).2 ∧
    (parallel_process f e).2.dtype = DType.int32 ∧
    (parallel_process f e).2.dtype ≠ DType.uint8 :=
  ⟨rfl, rfl, rfl, fun hcontra => DType.noConfusion hcontra, rfl, rfl, rfl,
    fun hcontra => DType.noConfusion hcontra⟩

/-- C10: every observable outcome of a `benchmark` run — the buffer states
produced by the timed invocations, the measured times, the warm-up count and
the namespace array copies — is independent of the setup code string executed
into the timer's namespace; only the recorded setup bindings themselves (such
as `dask_array_method`'s `new_end_array` scratch buffer) depend on it, and
`process` never resolves against them: its free variables live in its
defining module, modelled by `ProcessFn` receiving only the two arrays. -/
theorem benchmark_setup_independent (r c : ℕ) (su1 su2 : Unit → SetupBindings r c)
    (p : ProcessFn r c) (f : Field r c) (e : NDBuf r c) (w : ℤ) (t : ℕ) (cost : ℕ → ℚ) :
    (benchmark su1 p f e w t cost).shared_end_after
      = (benchmark su2 p f e w t cost).shared_end_after ∧
    (benchmark su1 p f e w t cost).total = (benchmark su2 p f e w t cost).total ∧
    (benchmark su1 p f e w t cost).avg = (benchmark su2 p f e w t cost).avg ∧
    (benchmark su1 p f e w t cost).warmup_invocations
      = (benchmark su2 p f e w t cost).warmup_invocations ∧
    (benchmark su1 p f e w t cost).ns_start_copy = (benchmark su2 p f e w t cost).ns_start_copy ∧
    (benchmark su1 p f e w t cost).ns_end_copy = (benchmark su2 p f e w t cost).ns_end_copy ∧
    (benchmark su1 dask_array_process f e w t cost).shared_end_after
      = (benchmark su2 dask_array_process f e w t cost).shared_end_after ∧
    (benchmark su1 dask_array_process f e w t cost).ns_setup = su1 () :=
  ⟨rfl, rfl, rfl, rfl, rfl, rfl, rfl, rfl⟩

/-- C2 counterexample: `list_comprehension_method.process` applies
`int(value * 255)` without a sign test, so on the 1×1 field holding `-0.5`
its channel 0 is `-127` — neither `0` nor in agreement with the nested-loop
reference kernel, which yields `0` there.  The claim fails for this
registered kernel. -/
theorem list_comprehension_breaks_sign_rule :
    (list_comprehension_process f_neg e0_1).2.data 0 0 0 = -127 ∧
    (nested_loop_process f_neg e0_1).2.data 0 0 0 = 0 ∧
    (list_comprehension_process f_neg e0_1).2.data 0 0 0
      ≠ (nested_loop_process f_neg e0_1).2.data 0 0 0 := by
  decide

/-- C2 (amended): for every registered kernel *except
`list_comprehension_method`*, `process` on a deterministic input field with
values in the nominal `[-1, 1]` range and the zeroed `uint8` buffer yields
the `(rows, cols, 3)` array whose channels 1 and 2 are zero everywhere and
whose channel 0 is `0` or the truncation of `255 * input_field[x,y]`
according to the input's sign (`refData`), agreeing with the nested-loop
reference kernel cell-for-cell, with every value representable in 8 unsigned
bits. -/
theorem kernels_match_reference (r c : ℕ) (f : Field r c) (hf : FieldInRange f) :
    (nested_loop_process f (zerosBuf r c DType.uint8)).2.data = refData f ∧
    (where_process f (zerosBuf r c DType.uint8)).2.data
      = (nested_loop_process f (zerosBuf r c DType.uint8)).2.data ∧
    (clip_process f (zerosBuf r c DType.uint8)).2.data
      = (nested_loop_process f (zerosBuf r c DType.uint8)).2.data ∧
    (heaviside_process f (zerosBuf r c DType.uint8)).2.data
      = (nested_loop_process f (zerosBuf r c DType.uint8)).2.data ∧
    (piecewise_process f (zerosBuf r c DType.uint8)).2.data
      = (nested_loop_process f (zerosBuf r c DType.uint8)).2.data ∧
    (dask_array_process f (zerosBuf r c DType.uint8)).2.data
      = (nested_loop_process f (zerosBuf r c DType.uint8)).2.data ∧
    (parallel_process f (zerosBuf r c DType.uint8)).2.data
      = (nested_loop_process f (zerosBuf r c DType.uint8)).2.data ∧
    dataIn255 ((nested_loop_process f (zerosBuf r c DType.uint8)).2.data) ∧
    (nested_loop_process f (zerosBuf r c DType.uint8)).2.dtype = DType.uint8 ∧
    (parallel_process f (zerosBuf r c DType.uint8)).2.dtype = DType.int32 := by
  have hn := nested_loop_data f hf (zerosBuf r c DType.uint8) rfl
  refine ⟨hn, ?_, ?_, ?_, ?_, ?_, ?_, ?_, rfl, rfl⟩
  · rw [where_data f hf, hn]
  · rw [clip_data f hf, hn]
  · rw [heaviside_data f hf, hn]
  · rw [piecewise_data f hf, hn]
  · rw [dask_array_data f hf, hn]
  · rw [parallel_data f hf, hn]
  · rw [hn]
    exact refData_in255 f hf

/-- Witness for C2 (amended) on the concrete 4×4 scenario field. -/
theorem kernels_match_reference_witness :
    FieldInRange f_scene ∧
    (where_process f_scene (zerosBuf 4 4 DType.uint8)).2.data
      = (nested_loop_process f_scene (zerosBuf 4 4 DType.uint8)).2.data :=
  ⟨by decide, (kernels_match_reference 4 4 f_scene (by decide)).2.1⟩

/-- C3: on a 4×4 deterministic field with cell `(0,0) = -0.5` and cell
`(1,1) = 0.6` (and all values in the nominal range), the nested-loop
reference kernel writes `(0,0,0)` at `(0,0)` and `(153,0,0)` at `(1,1)`
(`0.6 * 255 = 153`, truncated), and every sign-consistent kernel — `where`,
`clip`, `heaviside`, `piecewise`, the jitted kernel of
`dask_array_method.py` and `parallel_method` — produces exactly the same
cell values. -/
theorem end_to_end_scenario (f : Field 4 4) (hf : FieldInRange f)
    (h00 : f 0 0 = mkRat (-1) 2) (h11 : f 1 1 = mkRat 3 5) :
    (nested_loop_process f e0_4).2.data 0 0 0 = 0 ∧
    (nested_loop_process f e0_4).2.data 0 0 1 = 0 ∧
    (nested_loop_process f e0_4).2.data 0 0 2 = 0 ∧
    (nested_loop_process f e0_4).2.data 1 1 0 = 153 ∧
    (nested_loop_process f e0_4).2.data 1 1 1 = 0 ∧
    (nested_loop_process f e0_4).2.data 1 1 2 = 0 ∧
    (where_process f e0_4).2.data = (nested_loop_process f e0_4).2.data ∧
    (clip_process f e0_4).2.data = (nested_loop_process f e0_4).2.data ∧
    (heaviside_process f e0_4).2.data = (nested_loop_process f e0_4).2.data ∧
    (piecewise_process f e0_4).2.data = (nested_loop_process f e0_4).2.data ∧
    (dask_array_process f e0_4).2.data = (nested_loop_process f e0_4).2.data ∧
    (parallel_process f e0_4).2.data = (nested_loop_process f e0_4).2.data := by
  have hn : (nested_loop_process f e0_4).2.data = refData f :=
    nested_loop_data f hf e0_4 rfl
  refine ⟨?_, ?_, ?_, ?_, ?_, ?_, ?_, ?_, ?_, ?_, ?_, ?_⟩
  · rw [hn]
    simp only [refData]
    rw [if_true, h00]
    decide
  · rw [hn]
    simp only [refData]
    rw [if_neg (by decide : ¬(1 : Fin 3) = 0)]
  · rw [hn]
    simp only [refData]
    rw [if_neg (by decide : ¬(2 : Fin 3) = 0)]
  · rw [hn]
    simp only [refData]
    rw [if_true, h11]
    decide
  · rw [hn]
    simp only [refData]
    rw [if_neg (by decide : ¬(1 : Fin 3) = 0)]
  · rw [hn]
    simp only [refData]
    rw [if_neg (by decide : ¬(2 : Fin 3) = 0)]
  · rw [hn]
    simp only [e0_4]
    exact where_data f hf
  · rw [hn]
    simp only [e0_4]
    exact clip_data f hf
  · rw [hn]
    simp only [e0_4]
    exact heaviside_data f hf
  · rw [hn]
    simp only [e0_4]
    exact piecewise_data f hf
  · rw [hn]
    simp only [e0_4]
    exact dask_array_data f hf
  · rw [hn]
    simp only [e0_4]
    exact parallel_data f hf e0_4

/-- Witness for C3: the concrete scenario field satisfies the hypotheses and
yields `153` in channel 0 of cell `(1,1)`. -/
theorem end_to_end_scenario_witness :
    (FieldInRange f_scene ∧ f_scene 0 0 = mkRat (-1) 2 ∧ f_scene 1 1 = mkRat 3 5) ∧
    (nested_loop_process f_scene e0_4).2.data 1 1 0 = 153 :=
  ⟨⟨by decide, by decide, by decide⟩,
    (end_to_end_scenario f_scene (by decide) (by decide) (by decide)).2.2.2.1⟩

/-- C5: the reporter's sort (`sorted(results, key=lambda x: x[1])`, embedded
as `pySorted`) orders any results sequence ascending by average time — every
adjacent pair of the rendered list satisfies `avg[i] ≤ avg[i+1]` — it is a
permutation of the input, and it is stable: for every key value, the rows
carrying that average time appear in exactly their original relative order,
regardless of the registry insertion order. -/
theorem reporter_sorts_stably (l : List BenchRow) :
    (pySorted l).Chain' rowLE ∧
    (pySorted l).Perm l ∧
    ∀ k : ℚ, (pySorted l).filter (fun row => decide (rowKey row = k))
      = l.filter (fun row => decide (rowKey row = k)) := by
  refine ⟨?_, List.perm_insertionSort rowLE l, fun k => ?_⟩
  · exact List.chain'_iff_pairwise.mpr (List.sorted_insertionSort rowLE l)
  · set p : BenchRow → Bool := fun row => decide (rowKey row = k) with hp
    have hall : ∀ a ∈ l.filter p, ∀ b ∈ l.filter p, rowLE a b := by
      intro a ha b hb
      have hak : rowKey a = k := of_decide_eq_true (List.mem_filter.mp ha).2
      have hbk : rowKey b = k := of_decide_eq_true (List.mem_filter.mp hb).2
      rw [rowLE, hak, hbk]
    have hsub : List.Sublist (l.filter p) (pySorted l) :=
      List.sublist_insertionSort (List.pairwise_of_forall_mem_list hall) (List.filter_sublist l)
    have h2 : List.Sublist ((l.filter p).filter p) ((pySorted l).filter p) := hsub.filter p
    rw [List.filter_eq_self.mpr fun a ha => (List.mem_filter.mp ha).2] at h2
    have hperm : List.Perm ((pySorted l).filter p) (l.filter p) :=
      (List.perm_insertionSort rowLE l).filter p
    exact (h2.eq_of_length hperm.length_eq.symm).symm

/-- C1 (code bug): running the harness over two kernels on a 1×1 field
holding `0.5` with `NUM_WARMUP = 1` and one trial: the copies placed in each
kernel's timing namespace are never the arrays the timed thunk
`lambda: process(start_array, end_array)` operates on — the thunk closes over
the shared arrays — and the copies themselves are taken from the shared
buffer *after* earlier kernels mutated it.  Concretely, the second kernel's
thunk buffer and its namespace "copy" both already hold `127`
(`int(0.5 * 255)`, written in place by `nested_loop_method`), not the
pristine `0` of the original zeroed buffer, so the second kernel's timed run
observes the first kernel's mutations. -/
theorem timed_runs_share_buffers :
    ((runKernels
          [("nested_loop_method", nested_loop_method),
            ("list_comprehension_method", list_comprehension_method)]
          f_pos e0_1 NUM_WARMUP 1 unitCost2).1.map
        fun q => q.2.entry_end.data 0 0 0) = [0, 127] ∧
    ((runKernels
          [("nested_loop_method", nested_loop_method),
            ("list_comprehension_method", list_comprehension_method)]
          f_pos e0_1 NUM_WARMUP 1 unitCost2).1.map
        fun q => q.2.ns_end_copy.data 0 0 0) = [0, 127] ∧
    e0_1.data 0 0 0 = 0 := by
  decide

/-- C4 counterexample: `create_methods_list` performs no validation — a
module missing the `process` callable is registered like any other (no
`DiscoveryError` exists anywhere in the code), and the benchmarking loop then
measures the well-formed kernels preceding it (here one kernel, not zero)
before the attribute access fails. -/
theorem discovery_registers_malformed :
    (create_methods_list methodFiles loadMethods).map Prod.fst
      = ["nested_loop_method", "zz_broken_method"] ∧
    (runKernels (create_methods_list methodFiles loadMethods) f_pos e0_1 NUM_WARMUP 1
        unitCost2).2.1 = true ∧
    (runKernels (create_methods_list methodFiles loadMethods) f_pos e0_1 NUM_WARMUP 1
        unitCost2).1.length = 1 := by
  decide

/-- C4 (amended): a malformed kernel definition is registered by discovery
without error; the failure surfaces only inside the benchmarking loop of
`display_results`, as an attribute error at the malformed module, after every
kernel listed before it has already been benchmarked — and the sorted report
lines and footer are never printed (only the header preamble is). -/
theorem malformed_module_fails_after_measuring (r c : ℕ)
    (pre post : List (String × PyModule r c)) (name : String) (m : PyModule r c)
    (f : Field r c) (e : NDBuf r c) (w : ℤ) (t : ℕ) (cost : ℕ → ℕ → ℚ)
    (hpre : ∀ q ∈ pre, q.2.setup?.isSome ∧ q.2.process?.isSome)
    (hm : m.setup?.isSome = false ∨ m.process?.isSome = false) :
    (runKernels (pre ++ (name, m) :: post) f e w t cost).2.1 = true ∧
    (runKernels (pre ++ (name, m) :: post) f e w t cost).1.length = pre.length ∧
    (display_results (pre ++ (name, m) :: post) f e w t cost).printed
      = [Line.sep, Line.header r c t, Line.sep] := by
  have key : ∀ (pre : List (String × PyModule r c)) (e : NDBuf r c) (cost : ℕ → ℕ → ℚ),
      (∀ q ∈ pre, q.2.setup?.isSome ∧ q.2.process?.isSome) →
      (runKernels (pre ++ (name, m) :: post) f e w t cost).2.1 = true ∧
      (runKernels (pre ++ (name, m) :: post) f e w t cost).1.length = pre.length := by
    intro pre
    induction pre with
    | nil =>
      intro e cost _
      rcases hsu : m.setup? with _ | su
      · constructor <;> simp [runKernels, hsu]
      · rcases hp2 : m.process? with _ | p2
        · constructor <;> simp [runKernels, hsu, hp2]
        · rcases hm with h | h
          · rw [hsu] at h
            simp at h
          · rw [hp2] at h
            simp at h
    | cons q rest ih =>
      intro e cost hwf
      obtain ⟨qn, qm⟩ := q
      obtain ⟨hqs, hqp⟩ := hwf (qn, qm) (List.mem_cons_self _ _)
      rcases hsu : qm.setup? with _ | su
      · rw [hsu] at hqs
        simp at hqs
      rcases hp2 : qm.process? with _ | p2
      · rw [hp2] at hqp
        simp at hqp
      obtain ⟨ih1, ih2⟩ :=
        ih (benchmark su p2 f e w t (cost 0)).shared_end_after (fun k => cost (k + 1))
          (fun q' hq' => hwf q' (List.mem_cons_of_mem _ hq'))
      constructor
      · simp only [List.cons_append, runKernels, hsu, hp2]
        exact ih1
      · simp only [List.cons_append, runKernels, hsu, hp2, List.length_cons]
        exact congrArg (fun n => n + 1) ih2
  obtain ⟨k1, k2⟩ := key pre e cost hpre
  refine ⟨k1, k2, ?_⟩
  simp [display_results, k1]

/-- Witness for C4 (amended): one well-formed kernel before the malformed
one; exactly that kernel is measured. -/
theorem malformed_module_fails_after_measuring_witness :
    ((∀ q ∈ [("nested_loop_method", (nested_loop_method : PyModule 1 1))],
        q.2.setup?.isSome ∧ q.2.process?.isSome) ∧
      ((zz_broken_method : PyModule 1 1).setup?.isSome = false ∨
        (zz_broken_method : PyModule 1 1).process?.isSome = false)) ∧
    (runKernels ([("nested_loop_method", (nested_loop_method : PyModule 1 1))]
          ++ ("zz_broken_method", zz_broken_method) :: []) f_pos e0_1 NUM_WARMUP 1
        unitCost2).1.length
      = [("nested_loop_method", (nested_loop_method : PyModule 1 1))].length :=
  ⟨⟨by decide, by decide⟩,
    (malformed_module_fails_after_measuring 1 1
        [("nested_loop_method", nested_loop_method)] [] "zz_broken_method" zz_broken_method
        f_pos e0_1 NUM_WARMUP 1 unitCost2 (by decide) (by decide)).2.1⟩

/-- C6 counterexample: `display_results` is not a pure reporter returning the
formatted text — on a concrete registry it prints (the emitted line trace is
nonempty) and returns Python `None`, not the text. -/
theorem display_results_prints_and_returns_none :
    (display_results [("nested_loop_method", nested_loop_method)] f_pos e0_1 NUM_WARMUP 1
        unitCost2).returned = none ∧
    (display_results [("nested_loop_method", nested_loop_method)] f_pos e0_1 NUM_WARMUP 1
        unitCost2).printed ≠ [] := by
  decide

/-- C6 (amended): `display_results` runs the benchmarks itself and performs
the output as a side effect — it prints the separator/header preamble, one
line per kernel in `pySorted` order, and the grand-total footer, and returns
`None` rather than the text. -/
theorem display_results_effects (r c : ℕ) (mods : List (String × PyModule r c))
    (f : Field r c) (e : NDBuf r c) (w : ℤ) (t : ℕ) (cost : ℕ → ℕ → ℚ)
    (h : (runKernels mods f e w t cost).2.1 = false) :
    (display_results mods f e w t cost).returned = none ∧
    (display_results mods f e w t cost).printed
      = [Line.sep, Line.header r c t, Line.sep]
          ++ (pySorted ((runKernels mods f e w t cost).1.map
                fun q => (q.1, q.2.avg, q.2.total))).map
              (fun row => Line.result row.1 row.2.1 row.2.2)
          ++ [Line.sep,
              Line.footer (((runKernels mods f e w t cost).1.map fun q => q.2.total).sum),
              Line.sep] := by
  constructor
  · simp [display_results, h]
  · simp [display_results, h]

/-- Witness for C6 (amended) on a concrete well-formed registry. -/
theorem display_results_effects_witness :
    (runKernels [("nested_loop_method", (nested_loop_method : PyModule 1 1))] f_pos e0_1
        NUM_WARMUP 1 unitCost2).2.1 = false ∧
    (display_results [("nested_loop_method", nested_loop_method)] f_pos e0_1 NUM_WARMUP 1
        unitCost2).returned = none :=
  ⟨by decide,
    (display_results_effects 1 1 [("nested_loop_method", nested_loop_method)] f_pos e0_1
        NUM_WARMUP 1 unitCost2 (by decide)).1⟩

end PerfComp
